import Mathlib

/-!
Shallow embedding of `src/app.py` (Vinted deal finder).

The Streamlit UI layer is out of scope; the embedded core is:
* `fetch_vinted_items` — paginated fetch and per-record normalization,
* `detect_new_items` — snapshot diff with read-then-overwrite persistence,
* `load_favorites` / `save_favorite` — the favorites key-value store.

External effects are made explicit:
* the HTTP layer is an oracle `Upstream : Nat → PageResult` giving, for each
  page number, either a request failure (anything caught by the `try` block:
  transport error, non-2xx via `raise_for_status`, JSON decode error) or the
  decoded `items` list; within one call of `fetch_vinted_items` the search
  term and category are fixed, so the oracle is indexed by page only;
* Python `dict` access `d[k]` is an `Except`-valued lookup (KeyError) and
  `d.get(k, v)` is `Option.getD`; an uncaught Python exception is the
  `Except.error` constructor, which the embedding propagates exactly where
  the interpreter would propagate the exception;
* the pandas steps are modelled after their documented semantics: building a
  DataFrame from an empty record list yields a frame with no columns, so
  selecting column "Created" raises KeyError; `pd.to_datetime` maps the
  empty string to the NaT sentinel and raises ValueError on a string its
  parser rejects — the parser itself is abstracted as a parameter
  `parse : String → Option Nat`;
* the snapshot CSV file and the favorites JSON file are explicit state
  (`Option _`, with `none` meaning the file does not exist); the CSV
  round-trip is identity on the listing table.
-/

namespace VintedApp

/-- Raw upstream record; each field is an `Option` because a JSON key may be
absent. `brandTitle` flattens `item.get("brand", \x7b\x7d).get("title", ...)`:
it is `none` when either the `brand` object or its `title` key is missing. -/
structure UpstreamItem where
  id : Option Nat
  title : Option String
  price : Option String
  brandTitle : Option String
  status_id : Option Nat
  url : Option String
  created_at : Option String
deriving DecidableEq

/-- A normalized record as appended to `items` in the Python loop; the
`Created` field still holds the raw string at this stage. -/
structure Row where
  ID : Nat
  Title : String
  Price : String
  Brand : String
  Condition : String
  Link : String
  Created : String
deriving DecidableEq

/-- A fully normalized listing, after the trailing
`df["Created"] = pd.to_datetime(df["Created"])` step: `Created` is now an
optional timestamp, `none` being the NaT sentinel. -/
structure Listing where
  ID : Nat
  Title : String
  Price : String
  Brand : String
  Condition : String
  Link : String
  Created : Option Nat
deriving DecidableEq

/-- A saved search, the Python dict `\x7b"search": ..., "category": ...\x7d`. -/
structure SearchQuery where
  search : String
  category : String
deriving DecidableEq

/-- The `CATEGORY_MAP` literal from the source: category name to optional
catalog id (`none` for the "All" pseudo-category). -/
def CATEGORY_MAP : List (String × Option Nat) :=
  [("All", none), ("Electronics", some 3), ("Women", some 1904),
   ("Men", some 1905), ("Kids", some 1906), ("Home", some 5),
   ("Books & Entertainment", some 16), ("Pets", some 2107)]

/-- Python `CATEGORY_MAP[c]`: `none` means the key is absent (KeyError). -/
def categoryLookup (c : String) : Option (Option Nat) :=
  (CATEGORY_MAP.find? (fun p => p.1 == c)).map (fun p => p.2)

/-- The `CONDITION_MAP` literal from the source, as the partial map realized
by Python `CONDITION_MAP.get`. -/
def CONDITION_MAP (code : Nat) : Option String :=
  match code with
  | 1 => some "New with tag"
  | 2 => some "New without tag"
  | 3 => some "Very good"
  | 4 => some "Good"
  | 5 => some "Satisfactory"
  | _ => none

/-- Python `CONDITION_MAP.get(code, "Unknown")`. -/
def conditionOf (code : Nat) : String :=
  (CONDITION_MAP code).getD "Unknown"

/-- Uncaught exceptions of a fetch cycle: `keyError` for Python `KeyError`
(missing dict key or missing DataFrame column), `valueError` for the
`pd.to_datetime` parse failure. -/
inductive FetchError where
  | keyError (key : String) : FetchError
  | valueError (value : String) : FetchError
deriving DecidableEq

/-- Result of one page request: `err` is anything the `try` block catches,
`ok` carries the decoded `data.get("items", [])` list. -/
inductive PageResult where
  | err : PageResult
  | ok (items : List UpstreamItem) : PageResult

/-- The upstream HTTP oracle for a fixed search term and category. -/
abbrev Upstream := Nat → PageResult

/-- One iteration body of `for item in data.get("items", [])`: the dict
literal appended to `items`. Required keys are read with `item[...]`
(KeyError when absent), in the evaluation order of the Python dict literal;
optional keys use `.get` defaults. -/
def normalizeItem (item : UpstreamItem) : Except FetchError Row :=
  match item.id with
  | none => .error (.keyError "id")
  | some i =>
    match item.title with
    | none => .error (.keyError "title")
    | some t =>
      match item.price with
      | none => .error (.keyError "price")
      | some pr =>
        match item.url with
        | none => .error (.keyError "url")
        | some u =>
          .ok { ID := i, Title := t, Price := pr,
                Brand := item.brandTitle.getD "Unknown",
                Condition := conditionOf (item.status_id.getD 0),
                Link := "https://www.vinted.fr" ++ u,
                Created := item.created_at.getD "" }

/-- The inner loop over one page's items, carrying the running `fetched`
counter. Each record is appended first and the `fetched >= limit` check runs
after the increment; the check breaks only this inner loop. Returns the
records appended on this page and the updated counter. -/
def processItems (limit : Nat) : List UpstreamItem → Nat → Except FetchError (List Row × Nat)
  | [], fetched => .ok ([], fetched)
  | item :: rest, fetched =>
    match normalizeItem item with
    | .error e => .error e
    | .ok r =>
      if fetched + 1 ≥ limit then .ok ([r], fetched + 1)
      else
        match processItems limit rest (fetched + 1) with
        | .error e => .error e
        | .ok (rs, f) => .ok (r :: rs, f)

/-- The outer loop `for page in range(1, pages + 1)`. A request failure
(`PageResult.err`) executes `break`: the records accumulated so far are kept
and returned. A normalization `KeyError` is an uncaught exception and
propagates out. -/
def fetchLoop (upstream : Upstream) (limit : Nat) :
    List Nat → List Row → Nat → Except FetchError (List Row)
  | [], acc, _ => .ok acc
  | page :: rest, acc, fetched =>
    match upstream page with
    | .err => .ok acc
    | .ok its =>
      match processItems limit its fetched with
      | .error e => .error e
      | .ok (rs, f) => fetchLoop upstream limit rest (acc ++ rs) f

/-- Modelled pandas semantics of `pd.to_datetime` on one cell: the empty
string becomes the NaT sentinel (`none`); a non-empty string is given to the
abstract parser `parse`, and a parse failure raises ValueError. -/
def to_datetime1 (parse : String → Option Nat) (s : String) : Except FetchError (Option Nat) :=
  if s = "" then .ok none
  else
    match parse s with
    | some t => .ok (some t)
    | none => .error (.valueError s)

/-- Elementwise `pd.to_datetime` over the `Created` column. -/
def convertRows (parse : String → Option Nat) : List Row → Except FetchError (List Listing)
  | [] => .ok []
  | r :: rest =>
    match to_datetime1 parse r.Created with
    | .error e => .error e
    | .ok c =>
      match convertRows parse rest with
      | .error e => .error e
      | .ok tail =>
        .ok ({ ID := r.ID, Title := r.Title, Price := r.Price, Brand := r.Brand,
               Condition := r.Condition, Link := r.Link, Created := c } :: tail)

/-- The trailing `df = pd.DataFrame(items); df["Created"] = pd.to_datetime(df["Created"])`
step. A DataFrame built from an empty record list has no columns, so the
column selection itself raises `KeyError: Created`. -/
def convertCreated (parse : String → Option Nat) (rows : List Row) :
    Except FetchError (List Listing) :=
  match rows with
  | [] => .error (.keyError "Created")
  | _ => convertRows parse rows

/-- The per-page `params` construction restricted to its only fallible part:
for a category other than "All", `CATEGORY_MAP[category]` is read and raises
KeyError when the name is unrecognized. The lookup is hoisted out of the page
loop; this is observationally equal because the loop always runs at least one
iteration and the lookup is deterministic. -/
def resolveCatalog (category : String) : Except FetchError (Option Nat) :=
  if category = "All" then .ok none
  else
    match categoryLookup category with
    | some cid => .ok cid
    | none => .error (.keyError category)

/-- Embedding of `fetch_vinted_items(search_term, category, limit)`.
`pages = (limit // 50) + 1` and the pages requested are `1, ..., pages`. -/
def fetch_vinted_items (upstream : Upstream) (parse : String → Option Nat)
    (search_term category : String) (limit : Nat) : Except FetchError (List Listing) :=
  match resolveCatalog category with
  | .error e => .error e
  | .ok _ =>
    match fetchLoop upstream limit (List.range' 1 (limit / 50 + 1)) [] 0 with
    | .error e => .error e
    | .ok rows => convertCreated parse rows

/-- Embedding of `detect_new_items(current_df)`. The snapshot file is the
explicit second argument (`none` when `PREVIOUS_RESULTS_FILE` does not
exist); the returned pair is (new listings, snapshot state after the call). -/
def detect_new_items (current_df : List Listing) (store : Option (List Listing)) :
    List Listing × Option (List Listing) :=
  match store with
  | none => (current_df, some current_df)
  | some prev_df =>
    let new_ids := (current_df.map (fun l => l.ID)).filter
        (fun i => !((prev_df.map (fun l => l.ID)).contains i))
    let new_listings := current_df.filter (fun l => new_ids.contains l.ID)
    (new_listings, some current_df)

/-- The favorites JSON object, as an insertion-ordered key-value list (the
representation of a Python dict loaded from JSON; keys are unique). -/
abbrev Favorites := List (String × SearchQuery)

/-- Embedding of `load_favorites()`: a missing file loads as the empty dict. -/
def load_favorites (store : Option Favorites) : Favorites :=
  store.getD []

/-- Python dict assignment `favs[name] = query`: replace in place when the
key is present (preserving insertion order), append otherwise. -/
def dictInsert (favs : Favorites) (name : String) (q : SearchQuery) : Favorites :=
  if favs.any (fun p => p.1 == name) then
    favs.map (fun p => if p.1 == name then (p.1, q) else p)
  else favs ++ [(name, q)]

/-- Embedding of `save_favorite(name, query)`: load, assign, dump the whole
dict back; returns the new favorites-file state. -/
def save_favorite (store : Option Favorites) (name : String) (q : SearchQuery) :
    Option Favorites :=
  some (dictInsert (load_favorites store) name q)

/-- Python dict lookup `favs.get(name)` on the loaded favorites object. -/
def dictGet (favs : Favorites) (name : String) : Option SearchQuery :=
  (favs.find? (fun p => p.1 == name)).map (fun p => p.2)

/-- Boolean success test on an `Except`-valued fetch step. -/
def exceptIsOk (e : Except FetchError (List Listing)) : Bool :=
  match e with
  | .ok _ => true
  | .error _ => false

/-- The first required identity field missing from an upstream record, in
the evaluation order of the Python dict literal (`id`, `title`, `price`,
`url`); `none` when the record carries all four. -/
def missingKey (item : UpstreamItem) : Option String :=
  match item.id with
  | none => some "id"
  | some _ =>
    match item.title with
    | none => some "title"
    | some _ =>
      match item.price with
      | none => some "price"
      | some _ =>
        match item.url with
        | none => some "url"
        | some _ => none

/-- The listing that the timestamp-conversion step produces out of a row
whose `Created` cell does not raise: the NaT sentinel for the empty string,
the parsed timestamp otherwise. -/
def listingOf (parse : String → Option Nat) (r : Row) : Listing :=
  { ID := r.ID, Title := r.Title, Price := r.Price, Brand := r.Brand,
    Condition := r.Condition, Link := r.Link,
    Created := if r.Created = "" then none else parse r.Created }

/-! Concrete inputs used by witnesses and counterexamples. -/

/-- A concrete listing used by the snapshot-differ witnesses. -/
def mkListing (i : Nat) : Listing :=
  { ID := i, Title := "t", Price := "9", Brand := "Unknown",
    Condition := "Unknown", Link := "https://www.vinted.fr/a", Created := none }

/-- The favorites-file state used by the C9 witness. -/
def c9Store : Option Favorites :=
  some [("y", { search := "shoes", category := "Women" })]

/-- First query saved by the C9 witness. -/
def c9q : SearchQuery := { search := "iPhone", category := "Electronics" }

/-- Second query saved by the C9 witness under the same name. -/
def c9q2 : SearchQuery := { search := "laptop", category := "Men" }

/-- A well-formed upstream item: all required fields present, empty
`created_at`. -/
def sampleItem : UpstreamItem :=
  { id := some 1, title := some "t", price := some "9", brandTitle := none,
    status_id := none, url := some "/a", created_at := some "" }

/-- A datetime parser that rejects every string. -/
def noParse : String → Option Nat := fun _ => none

/-- Upstream oracle for the C1 scenario: every page supplies exactly the 50
requested well-formed items. -/
def c1Up : Upstream := fun _ => .ok (List.replicate 50 sampleItem)

/-- The C1 fetch: limit 50, recognized category, abundant upstream. -/
def c1Fetch : Except FetchError (List Listing) :=
  fetch_vinted_items c1Up noParse "iPhone" "Electronics" 50

/-- The listing sequence the C1 fetch returns. -/
def c1Out : List Listing := c1Fetch.toOption.getD []

/-- An upstream item missing the required `price` field. -/
def c3BadPriceItem : UpstreamItem :=
  { id := some 7, title := some "t", price := none, brandTitle := none,
    status_id := none, url := some "/d", created_at := some "" }

/-- Upstream oracle for the amended-C3 witness: page 1 supplies one
well-formed record (normalized, then lost), page 2 carries the malformed
record in second position with well-formed neighbours. -/
def c3WitUp : Upstream := fun page =>
  if page = 1 then .ok [sampleItem]
  else .ok [sampleItem, c3BadPriceItem, sampleItem]

/-- An upstream item missing the required `title` field. -/
def c3BadTitleItem : UpstreamItem :=
  { id := some 2, title := none, price := some "9", brandTitle := none,
    status_id := none, url := some "/b", created_at := some "" }

/-- Upstream oracle for the C3 counterexample: a well-formed record followed
by a record lacking `title` in the same batch. -/
def c3Up : Upstream := fun _ => .ok [sampleItem, c3BadTitleItem]

/-- A row with an empty `Created` cell. -/
def c4RowEmpty : Row :=
  { ID := 1, Title := "t", Price := "9", Brand := "Unknown",
    Condition := "Unknown", Link := "https://www.vinted.fr/a", Created := "" }

/-- A row with a parseable `Created` cell. -/
def c4RowGood : Row :=
  { ID := 2, Title := "t", Price := "9", Brand := "Unknown",
    Condition := "Unknown", Link := "https://www.vinted.fr/a", Created := "2023" }

/-- A row with a non-empty unparseable `Created` cell. -/
def c4RowBad : Row :=
  { ID := 3, Title := "t", Price := "9", Brand := "Unknown",
    Condition := "Unknown", Link := "https://www.vinted.fr/a", Created := "garbage" }

/-- A parser that accepts exactly the string "2023". -/
def c4Parse : String → Option Nat := fun s => if s = "2023" then some 1672531200 else none

/-- An upstream item whose `created_at` is non-empty and unparseable. -/
def c4BadItem : UpstreamItem :=
  { id := some 3, title := some "t", price := some "9", brandTitle := none,
    status_id := none, url := some "/c", created_at := some "garbage" }

/-- Upstream oracle for the C4 counterexample: a record with empty
`created_at` followed by one with an unparseable `created_at`. -/
def c4Up : Upstream := fun _ => .ok [sampleItem, c4BadItem]

/-- Upstream oracle for the C5 witness: page 2 fails, every other page
supplies one well-formed item. -/
def c5Up : Upstream := fun page => if page = 2 then .err else .ok [sampleItem]

/-- Upstream oracle for the C10 witness: every page succeeds with zero
items. -/
def c10Up : Upstream := fun _ => .ok []

/-! Snapshot differ lemmas. -/

/-- Membership in the intermediate `new_ids` list is exactly absence from the
previous snapshot ids, for any id drawn from the current table. -/
lemma contains_filter_not_contains (ids prevIds : List Nat) (a : Nat) (ha : a ∈ ids) :
    ((ids.filter (fun i => !(prevIds.contains i))).contains a) = !(prevIds.contains a) := by
  by_cases hp : a ∈ prevIds
  · simp [List.contains, hp]
  · simp [List.contains, hp, ha]

/-- With a prior snapshot present, the first component returned by
`detect_new_items` is the filter of `current` by non-membership of the id in
the prior ids. -/
lemma detect_some_fst (current prev : List Listing) :
    (detect_new_items current (some prev)).1
      = current.filter (fun l => !((prev.map (fun x => x.ID)).contains l.ID)) := by
  show (current.filter fun l => ((current.map (fun x => x.ID)).filter
      (fun i => !((prev.map (fun x => x.ID)).contains i))).contains l.ID) = _
  apply List.filter_congr
  intro x hx
  exact contains_filter_not_contains _ _ _ (List.mem_map_of_mem _ hx)

/-- Claim C2: with an existing prior snapshot, `detect_new_items` returns
exactly the listings of `current` whose id does not occur among the prior
snapshot ids, preserving the order of `current` (it is a filter of
`current`). -/
theorem C2_diff_new_subset (current prev : List Listing) :
    (detect_new_items current (some prev)).1
      = current.filter (fun l => decide (l.ID ∉ prev.map (fun x => x.ID))) := by
  rw [detect_some_fst]
  apply List.filter_congr
  intro x _
  by_cases hp : x.ID ∈ prev.map (fun y => y.ID) <;> simp [List.contains, hp]

/-- Claim C6: after any call of `detect_new_items` — whether or not a prior
snapshot existed — the persisted snapshot state equals exactly the current
listing table that was passed in. -/
theorem C6_snapshot_overwrite (current : List Listing) (store : Option (List Listing)) :
    (detect_new_items current store).2 = some current := by
  cases store <;> rfl

/-- Claim C7: running `detect_new_items` twice in a row with the same
`current` table makes the second call return the empty list, because the
first call persisted `current` as the snapshot. -/
theorem C7_diff_idempotent (current : List Listing) (store : Option (List Listing)) :
    (detect_new_items current (detect_new_items current store).2).1 = [] := by
  have h2 : (detect_new_items current store).2 = some current := by cases store <;> rfl
  rw [h2, detect_some_fst]
  apply List.filter_eq_nil_iff.mpr
  intro l hl
  simp [List.contains, List.mem_map_of_mem _ hl]

/-- Claim C8: copies of a duplicated id are not deduplicated before diffing.
If `targetId` is absent from the prior snapshot ids, the result of
`detect_new_items` restricted to `targetId` equals all of `current`
restricted to `targetId`: every copy passes the new-item filter. -/
theorem C8_duplicate_ids (current prev : List Listing) (targetId : Nat)
    (hid : targetId ∉ prev.map (fun x => x.ID)) :
    ((detect_new_items current (some prev)).1.filter (fun l => l.ID == targetId))
      = current.filter (fun l => l.ID == targetId) := by
  rw [detect_some_fst, List.filter_filter]
  apply List.filter_congr
  intro x _
  by_cases h : x.ID = targetId
  · subst h
    simp [List.contains, hid]
  · simp [h]

/-- Witness for C8: prior ids \x7b1,2,3\x7d, current contains id 4 twice; both
copies of id 4 appear in the diff result. -/
theorem C8_duplicate_ids_witness :
    (((detect_new_items [mkListing 2, mkListing 4, mkListing 3, mkListing 4]
        (some [mkListing 1, mkListing 2, mkListing 3])).1.filter (fun l => l.ID == 4))
      = [mkListing 2, mkListing 4, mkListing 3, mkListing 4].filter (fun l => l.ID == 4)) ∧
    (((detect_new_items [mkListing 2, mkListing 4, mkListing 3, mkListing 4]
        (some [mkListing 1, mkListing 2, mkListing 3])).1.filter (fun l => l.ID == 4)).length = 2) := by
  refine ⟨C8_duplicate_ids _ _ 4 (by decide), by decide⟩

/-! Favorites store lemmas. -/

/-- Looking up the just-assigned key in the replace branch of a dict
assignment yields the new value. -/
lemma find?_mapReplace_self (favs : Favorites) (name : String) (q : SearchQuery)
    (h : favs.any (fun p => p.1 == name) = true) :
    (((favs.map (fun p => if p.1 == name then (p.1, q) else p)).find?
        (fun p => p.1 == name)).map (fun p => p.2)) = some q := by
  induction favs with
  | nil => simp at h
  | cons p rest ih =>
    rw [List.map_cons]
    by_cases hp : (p.1 == name) = true
    · rw [if_pos hp, List.find?_cons_of_pos (p := fun r : String × SearchQuery => r.1 == name) _
        (show (((p.1, q)).1 == name) = true from hp)]
      rfl
    · have hp2 : (p.1 == name) = false := Bool.eq_false_iff.mpr hp
      rw [if_neg hp, List.find?_cons_of_neg (p := fun r : String × SearchQuery => r.1 == name) _ hp]
      apply ih
      simp only [List.any_cons, hp2, Bool.false_or] at h
      exact h

/-- Looking up the just-assigned key in the append branch of a dict
assignment yields the new value. -/
lemma find?_append_self (favs : Favorites) (name : String) (q : SearchQuery)
    (h : favs.any (fun p => p.1 == name) = false) :
    ((((favs ++ [(name, q)]).find? (fun p => p.1 == name)).map (fun p => p.2))) = some q := by
  induction favs with
  | nil => simp
  | cons p rest ih =>
    simp only [List.any_cons, Bool.or_eq_false_iff] at h
    rw [List.cons_append, List.find?_cons_of_neg (p := fun r : String × SearchQuery => r.1 == name) _
      (Bool.eq_false_iff.mp h.1)]
    exact ih h.2

/-- Python dict assignment followed by lookup of the same key returns the
assigned value. -/
lemma dictGet_insert_self (favs : Favorites) (name : String) (q : SearchQuery) :
    dictGet (dictInsert favs name q) name = some q := by
  unfold dictInsert dictGet
  by_cases h : favs.any (fun p => p.1 == name) = true
  · rw [if_pos h]
    exact find?_mapReplace_self favs name q h
  · rw [if_neg h]
    exact find?_append_self favs name q (Bool.eq_false_iff.mpr h)

/-- The replace branch of a dict assignment leaves lookups of other keys
unchanged. -/
lemma find?_mapReplace_other (favs : Favorites) (name : String) (q : SearchQuery)
    (n : String) (hn : n ≠ name) :
    ((favs.map (fun p => if p.1 == name then (p.1, q) else p)).find? (fun p => p.1 == n))
      = favs.find? (fun p => p.1 == n) := by
  induction favs with
  | nil => rfl
  | cons p rest ih =>
    rw [List.map_cons]
    by_cases hpn : (p.1 == n) = true
    · have h1 : p.1 = n := by simpa using hpn
      have hp : ¬((p.1 == name) = true) := by simp [h1, hn]
      rw [if_neg hp, List.find?_cons_of_pos (p := fun r : String × SearchQuery => r.1 == n) _ hpn,
        List.find?_cons_of_pos (p := fun r : String × SearchQuery => r.1 == n) _ hpn]
    · have hkey : (if (p.1 == name) = true then (p.1, q) else p).1 = p.1 := by
        by_cases hp : (p.1 == name) = true
        · rw [if_pos hp]
        · rw [if_neg hp]
      have hpn2 : ¬(((if (p.1 == name) = true then (p.1, q) else p).1 == n) = true) := by
        rw [hkey]; exact hpn
      rw [List.find?_cons_of_neg (p := fun r : String × SearchQuery => r.1 == n) _ hpn2,
        List.find?_cons_of_neg (p := fun r : String × SearchQuery => r.1 == n) _ hpn]
      exact ih

/-- The append branch of a dict assignment leaves lookups of other keys
unchanged. -/
lemma find?_append_other (favs : Favorites) (name : String) (q : SearchQuery)
    (n : String) (hn : n ≠ name) :
    ((favs ++ [(name, q)]).find? (fun p => p.1 == n)) = favs.find? (fun p => p.1 == n) := by
  induction favs with
  | nil => simp [Ne.symm hn]
  | cons p rest ih =>
    by_cases hpn : (p.1 == n) = true <;> simp [hpn, ih]

/-- Python dict assignment leaves lookups of every other key unchanged. -/
lemma dictGet_insert_other (favs : Favorites) (name : String) (q : SearchQuery)
    (n : String) (hn : n ≠ name) :
    dictGet (dictInsert favs name q) n = dictGet favs n := by
  unfold dictInsert dictGet
  by_cases h : favs.any (fun p => p.1 == name) = true
  · rw [if_pos h, find?_mapReplace_other favs name q n hn]
  · rw [if_neg h, find?_append_other favs name q n hn]

/-- The replace branch of a dict assignment does not change the key column. -/
lemma keys_mapReplace (favs : Favorites) (name : String) (q : SearchQuery) :
    (favs.map (fun p => if p.1 == name then (p.1, q) else p)).map (fun p => p.1)
      = favs.map (fun p => p.1) := by
  induction favs with
  | nil => rfl
  | cons p rest ih =>
    simp only [List.map_cons]
    have hkey : (if (p.1 == name) = true then (p.1, q) else p).1 = p.1 := by
      by_cases hp : (p.1 == name) = true
      · rw [if_pos hp]
      · rw [if_neg hp]
    rw [hkey, ih]

/-- Python dict assignment preserves uniqueness of keys. -/
lemma keys_insert_nodup (favs : Favorites) (name : String) (q : SearchQuery)
    (hnd : (favs.map (fun p => p.1)).Nodup) :
    ((dictInsert favs name q).map (fun p => p.1)).Nodup := by
  unfold dictInsert
  by_cases h : favs.any (fun p => p.1 == name) = true
  · rw [if_pos h, keys_mapReplace]
    exact hnd
  · rw [if_neg h]
    have hnm : name ∉ favs.map (fun p => p.1) := by
      intro hmem
      obtain ⟨p, hp, hpk⟩ := List.mem_map.mp hmem
      have : favs.any (fun p => p.1 == name) = true :=
        List.any_eq_true.mpr ⟨p, hp, by simp [hpk]⟩
      exact h this
    simpa using List.Nodup.append hnd (by simp) (by simpa using hnm)

/-- In a dict with unique keys, a present key occupies exactly one entry. -/
lemma filter_key_of_mem (favs : Favorites) (name : String)
    (hnd : (favs.map (fun p => p.1)).Nodup) (hmem : name ∈ favs.map (fun p => p.1)) :
    (favs.filter (fun p => p.1 == name)).length = 1 := by
  induction favs with
  | nil => simp at hmem
  | cons p rest ih =>
    simp only [List.map_cons, List.nodup_cons] at hnd
    rcases List.mem_cons.mp hmem with hp | hp
    · have hpk : (p.1 == name) = true := by simp [hp]
      have hrest : rest.filter (fun r => r.1 == name) = [] := by
        apply List.filter_eq_nil_iff.mpr
        intro r hr hcontra
        have hr1 : r.1 = name := by simpa using hcontra
        have h2 : r.1 ∈ rest.map (fun x => x.1) := List.mem_map_of_mem _ hr
        rw [hr1, hp] at h2
        exact hnd.1 h2
      simp [List.filter_cons, hpk, hrest]
    · have hpk : (p.1 == name) = false := by
        refine Bool.eq_false_iff.mpr ?_
        intro hc
        have hp1 : p.1 = name := by simpa using hc
        exact hnd.1 (hp1 ▸ hp)
      simp only [List.filter_cons, hpk, Bool.false_eq_true, if_false]
      exact ih hnd.2 hp

/-- After a dict assignment on a unique-key dict, the assigned key occupies
exactly one entry: no duplicate entries arise from an upsert. -/
lemma filter_key_insert (favs : Favorites) (name : String) (q : SearchQuery)
    (hnd : (favs.map (fun p => p.1)).Nodup) :
    ((dictInsert favs name q).filter (fun p => p.1 == name)).length = 1 := by
  unfold dictInsert
  by_cases h : favs.any (fun p => p.1 == name) = true
  · rw [if_pos h]
    apply filter_key_of_mem
    · rw [keys_mapReplace]
      exact hnd
    · rw [keys_mapReplace]
      obtain ⟨p, hp, hpk⟩ := List.any_eq_true.mp h
      have hp1 : p.1 = name := by simpa using hpk
      exact hp1 ▸ List.mem_map_of_mem _ hp
  · rw [if_neg h]
    have h2 : ∀ x ∈ favs, ¬((x.1 == name) = true) := by
      intro x hx hc
      exact h (List.any_eq_true.mpr ⟨x, hx, hc⟩)
    have hfav : favs.filter (fun p => p.1 == name) = [] :=
      List.filter_eq_nil_iff.mpr h2
    rw [List.filter_append, hfav]
    simp

/-- Claim C9: saving a favorite twice under the same name, then loading,
binds the name to the second query (last write wins, exactly one entry for
the name) and leaves every other name's entry unchanged. -/
theorem C9_favorites_upsert (store : Option Favorites) (name n : String)
    (q q2 : SearchQuery)
    (hnd : ((load_favorites store).map (fun p => p.1)).Nodup) (hn : n ≠ name) :
    dictGet (load_favorites (save_favorite (save_favorite store name q) name q2)) name = some q2 ∧
    dictGet (load_favorites (save_favorite (save_favorite store name q) name q2)) n
      = dictGet (load_favorites store) n ∧
    ((load_favorites (save_favorite (save_favorite store name q) name q2)).filter
       (fun p => p.1 == name)).length = 1 := by
  have hload : load_favorites (save_favorite (save_favorite store name q) name q2)
      = dictInsert (dictInsert (load_favorites store) name q) name q2 := rfl
  rw [hload]
  refine ⟨dictGet_insert_self _ _ _, ?_, ?_⟩
  · rw [dictGet_insert_other _ name q2 n hn, dictGet_insert_other _ name q n hn]
  · exact filter_key_insert _ name q2 (keys_insert_nodup _ name q hnd)

/-- Witness for C9 at a concrete prior mapping and queries. -/
theorem C9_favorites_upsert_witness :
    dictGet (load_favorites (save_favorite (save_favorite c9Store "x" c9q) "x" c9q2)) "x" = some c9q2 ∧
    dictGet (load_favorites (save_favorite (save_favorite c9Store "x" c9q) "x" c9q2)) "y"
      = dictGet (load_favorites c9Store) "y" ∧
    ((load_favorites (save_favorite (save_favorite c9Store "x" c9q) "x" c9q2)).filter
       (fun p => p.1 == "x")).length = 1 :=
  C9_favorites_upsert c9Store "x" "y" c9q c9q2 (by decide) (by decide)

/-! Listing fetcher lemmas. -/

/-- A recognized category (or the pseudo-category "All") makes the params
construction succeed. -/
lemma resolveCatalog_ok (category : String)
    (hcat : category = "All" ∨ (categoryLookup category).isSome = true) :
    ∃ v, resolveCatalog category = .ok v := by
  unfold resolveCatalog
  by_cases hall : category = "All"
  · exact ⟨none, by rw [if_pos hall]⟩
  · rw [if_neg hall]
    cases hcat with
    | inl h => exact absurd h hall
    | inr h =>
      cases hl : categoryLookup category with
      | none => rw [hl] at h; simp at h
      | some v => exact ⟨v, rfl⟩

/-- A page request failure executes `break`: pages listed after the failing
one contribute nothing, whatever they would have returned. -/
lemma fetchLoop_break (upstream : Upstream) (limit : Nat) (ps1 : List Nat) (page : Nat)
    (ps2 : List Nat) (acc : List Row) (fetched : Nat) (h : upstream page = .err) :
    fetchLoop upstream limit (ps1 ++ page :: ps2) acc fetched
      = fetchLoop upstream limit ps1 acc fetched := by
  induction ps1 generalizing acc fetched with
  | nil => simp only [List.nil_append, fetchLoop, h]
  | cons q rest ih =>
    rw [List.cons_append]
    cases hq : upstream q with
    | err => simp only [fetchLoop, hq]
    | ok its =>
      cases hpi : processItems limit its fetched with
      | error e => simp only [fetchLoop, hq, hpi]
      | ok pr => simp only [fetchLoop, hq, hpi]; exact ih _ _

/-- When every requested page returns an empty items list, the loop returns
its accumulator unchanged. -/
lemma fetchLoop_empty (upstream : Upstream) (limit : Nat) (ps : List Nat)
    (acc : List Row) (fetched : Nat) (h : ∀ p ∈ ps, upstream p = .ok []) :
    fetchLoop upstream limit ps acc fetched = .ok acc := by
  induction ps generalizing acc fetched with
  | nil => rfl
  | cons q rest ih =>
    have hq : upstream q = .ok [] := h q (List.mem_cons_self _ _)
    simp only [fetchLoop, hq, processItems, List.append_nil]
    exact ih _ _ (fun p hp => h p (List.mem_cons_of_mem _ hp))

/-- Counting behaviour of the inner loop: the counter advances by exactly
the number of appended records, a page never appends more records than it
has items, and the final counter is at most `limit` unless it overshot by
the single record appended before the first post-increment check fired. -/
lemma processItems_spec (limit : Nat) (its : List UpstreamItem) (fetched : Nat)
    (rs : List Row) (f : Nat) (h : processItems limit its fetched = .ok (rs, f)) :
    f = fetched + rs.length ∧ rs.length ≤ its.length ∧ (f ≤ limit ∨ f ≤ fetched + 1) := by
  induction its generalizing fetched rs f with
  | nil =>
    simp only [processItems, Except.ok.injEq, Prod.mk.injEq] at h
    obtain ⟨hrs, hf⟩ := h
    subst hrs
    subst hf
    exact ⟨by simp, by simp, Or.inr (by omega)⟩
  | cons it rest ih =>
    simp only [processItems] at h
    cases hnorm : normalizeItem it with
    | error e =>
      simp only [hnorm] at h
      exact Except.noConfusion h
    | ok r =>
      simp only [hnorm] at h
      by_cases hge : fetched + 1 ≥ limit
      · rw [if_pos hge] at h
        simp only [Except.ok.injEq, Prod.mk.injEq] at h
        obtain ⟨hrs, hf⟩ := h
        subst hrs
        subst hf
        exact ⟨by simp, by simp, Or.inr (by omega)⟩
      · rw [if_neg hge] at h
        cases hrec : processItems limit rest (fetched + 1) with
        | error e =>
          simp only [hrec] at h
          exact Except.noConfusion h
        | ok pr =>
          obtain ⟨rs2, f2⟩ := pr
          simp only [hrec] at h
          simp only [Except.ok.injEq, Prod.mk.injEq] at h
          obtain ⟨hrs, hf⟩ := h
          subst hrs
          subst hf
          obtain ⟨h1, h2, h3⟩ := ih _ _ _ hrec
          refine ⟨by simp [h1]; omega, by simp; omega, Or.inl ?_⟩
          omega

/-- Counting invariant of the page loop: starting from counter `fetched`
with `fetched + 50 * ps.length ≤ limit + 50`, if every successful page
supplies at most 50 items (the requested `per_page`), the output has at most
`acc.length + (limit + 1 - fetched)` records. -/
lemma fetchLoop_len_le (upstream : Upstream) (limit : Nat)
    (h50 : ∀ p its, upstream p = .ok its → its.length ≤ 50)
    (ps : List Nat) (acc : List Row) (fetched : Nat) (out : List Row)
    (hpre : fetched + 50 * ps.length ≤ limit + 50)
    (h : fetchLoop upstream limit ps acc fetched = .ok out) :
    out.length ≤ acc.length + (limit + 1 - fetched) := by
  induction ps generalizing acc fetched out with
  | nil =>
    simp only [fetchLoop, Except.ok.injEq] at h
    subst h
    omega
  | cons q rest ih =>
    simp only [List.length_cons] at hpre
    cases hq : upstream q with
    | err =>
      simp only [fetchLoop, hq, Except.ok.injEq] at h
      subst h
      omega
    | ok its =>
      cases hpi : processItems limit its fetched with
      | error e =>
        simp only [fetchLoop, hq, hpi] at h
        exact Except.noConfusion h
      | ok pr =>
        obtain ⟨rs, f⟩ := pr
        simp only [fetchLoop, hq, hpi] at h
        obtain ⟨h1, h2, h3⟩ := processItems_spec _ _ _ _ _ hpi
        have h50q := h50 q its hq
        have hlen := ih (acc ++ rs) f out (by omega) h
        rw [List.length_append] at hlen
        omega

/-- Strict variant: when `fetched + 50 * ps.length ≤ limit + 49` — which
holds for the pages issued whenever `limit` is not a multiple of 50 — the
output stays within `acc.length + (limit - fetched)` records. -/
lemma fetchLoop_len_lt (upstream : Upstream) (limit : Nat)
    (h50 : ∀ p its, upstream p = .ok its → its.length ≤ 50)
    (ps : List Nat) (acc : List Row) (fetched : Nat) (out : List Row)
    (hpre : fetched + 50 * ps.length ≤ limit + 49)
    (h : fetchLoop upstream limit ps acc fetched = .ok out) :
    out.length ≤ acc.length + (limit - fetched) := by
  induction ps generalizing acc fetched out with
  | nil =>
    simp only [fetchLoop, Except.ok.injEq] at h
    subst h
    omega
  | cons q rest ih =>
    simp only [List.length_cons] at hpre
    cases hq : upstream q with
    | err =>
      simp only [fetchLoop, hq, Except.ok.injEq] at h
      subst h
      omega
    | ok its =>
      cases hpi : processItems limit its fetched with
      | error e =>
        simp only [fetchLoop, hq, hpi] at h
        exact Except.noConfusion h
      | ok pr =>
        obtain ⟨rs, f⟩ := pr
        simp only [fetchLoop, hq, hpi] at h
        obtain ⟨h1, h2, h3⟩ := processItems_spec _ _ _ _ _ hpi
        have h50q := h50 q its hq
        have hlen := ih (acc ++ rs) f out (by omega) h
        rw [List.length_append] at hlen
        omega

/-- The timestamp conversion is length-preserving when it succeeds. -/
lemma convertRows_length (parse : String → Option Nat) (rows : List Row)
    (out : List Listing) (h : convertRows parse rows = .ok out) :
    out.length = rows.length := by
  induction rows generalizing out with
  | nil =>
    simp only [convertRows, Except.ok.injEq] at h
    subst h
    rfl
  | cons r rest ih =>
    simp only [convertRows] at h
    cases h1 : to_datetime1 parse r.Created with
    | error e => rw [h1] at h; simp at h
    | ok c =>
      rw [h1] at h
      cases h2 : convertRows parse rest with
      | error e => rw [h2] at h; simp at h
      | ok tail =>
        rw [h2] at h
        simp only [Except.ok.injEq] at h
        subst h
        simp [ih tail h2]

/-- The full trailing pandas step is length-preserving when it succeeds. -/
lemma convertCreated_length (parse : String → Option Nat) (rows : List Row)
    (out : List Listing) (h : convertCreated parse rows = .ok out) :
    out.length = rows.length := by
  cases rows with
  | nil => simp [convertCreated] at h
  | cons r rest => exact convertRows_length parse (r :: rest) out h

/-- Splitting the issued page range at one of its pages. -/
lemma range'_split_at (P k : Nat) (hk1 : 1 ≤ k) (hk2 : k ≤ P) :
    List.range' 1 P = List.range' 1 (k - 1) ++ k :: List.range' (k + 1) (P - k) := by
  have h2 : 1 + (k - 1) = k := by omega
  have h3 : (P - k) + 1 + (k - 1) = P := by omega
  calc List.range' 1 P
      = List.range' 1 ((P - k) + 1 + (k - 1)) := by rw [h3]
    _ = List.range' 1 (k - 1) ++ List.range' (1 + (k - 1)) ((P - k) + 1) :=
        (List.range'_append_1 1 (k - 1) ((P - k) + 1)).symm
    _ = List.range' 1 (k - 1) ++ List.range' k ((P - k) + 1) := by rw [h2]
    _ = List.range' 1 (k - 1) ++ (k :: List.range' (k + 1) (P - k)) := by
        rw [List.range'_succ]

/-- Normalizing a record that lacks a required identity field raises the
KeyError naming the first missing field. -/
lemma normalizeItem_err_of_missing (item : UpstreamItem) (key : String)
    (h : missingKey item = some key) :
    normalizeItem item = .error (.keyError key) := by
  cases hid : item.id with
  | none =>
    simp only [missingKey, hid, Option.some.injEq] at h
    subst h
    simp [normalizeItem, hid]
  | some i =>
    cases htitle : item.title with
    | none =>
      simp only [missingKey, hid, htitle, Option.some.injEq] at h
      subst h
      simp [normalizeItem, hid, htitle]
    | some t =>
      cases hprice : item.price with
      | none =>
        simp only [missingKey, hid, htitle, hprice, Option.some.injEq] at h
        subst h
        simp [normalizeItem, hid, htitle, hprice]
      | some pr =>
        cases hurl : item.url with
        | none =>
          simp only [missingKey, hid, htitle, hprice, hurl, Option.some.injEq] at h
          subst h
          simp [normalizeItem, hid, htitle, hprice, hurl]
        | some u => simp [missingKey, hid, htitle, hprice, hurl] at h

/-- Normalizing a record that carries all four identity fields succeeds. -/
lemma normalizeItem_ok_of_wf (item : UpstreamItem) (h : missingKey item = none) :
    ∃ r, normalizeItem item = .ok r := by
  cases hid : item.id with
  | none => simp [missingKey, hid] at h
  | some i =>
    cases htitle : item.title with
    | none => simp [missingKey, hid, htitle] at h
    | some t =>
      cases hprice : item.price with
      | none => simp [missingKey, hid, htitle, hprice] at h
      | some pr =>
        cases hurl : item.url with
        | none => simp [missingKey, hid, htitle, hprice, hurl] at h
        | some u =>
          refine ⟨{ ID := i, Title := t, Price := pr,
                    Brand := item.brandTitle.getD "Unknown",
                    Condition := conditionOf (item.status_id.getD 0),
                    Link := "https://www.vinted.fr" ++ u,
                    Created := item.created_at.getD "" }, ?_⟩
          simp [normalizeItem, hid, htitle, hprice, hurl]

/-- A page whose records are all well-formed is processed without an
exception, and the counter advances by at most the page's item count. -/
lemma processItems_ok_of_wf (limit : Nat) (its : List UpstreamItem) (fetched : Nat)
    (h : ∀ x ∈ its, missingKey x = none) :
    ∃ rs f2, processItems limit its fetched = .ok (rs, f2) ∧ f2 ≤ fetched + its.length := by
  induction its generalizing fetched with
  | nil => exact ⟨[], fetched, rfl, by omega⟩
  | cons x rest ih =>
    obtain ⟨r, hr⟩ := normalizeItem_ok_of_wf x (h x (List.mem_cons_self _ _))
    by_cases hge : fetched + 1 ≥ limit
    · refine ⟨[r], fetched + 1, ?_, by simp only [List.length_cons]; omega⟩
      simp only [processItems, hr, if_pos hge]
    · obtain ⟨rs, f2, hrec, hle⟩ :=
        ih (fetched + 1) (fun y hy => h y (List.mem_cons_of_mem _ hy))
      refine ⟨r :: rs, f2, ?_, by simp only [List.length_cons]; omega⟩
      simp only [processItems, hr, if_neg hge, hrec]

/-- A malformed record at any position of a page aborts the inner loop with
its KeyError, provided the limit cutoff has not fired before reaching it:
the records of the page normalized before it are discarded. -/
lemma processItems_err_reached (limit : Nat) (pre : List UpstreamItem) (it : UpstreamItem)
    (post : List UpstreamItem) (fetched : Nat) (key : String)
    (hwf : ∀ x ∈ pre, missingKey x = none)
    (hreach : fetched + pre.length < limit)
    (hkey : missingKey it = some key) :
    processItems limit (pre ++ it :: post) fetched = .error (.keyError key) := by
  induction pre generalizing fetched with
  | nil =>
    rw [List.nil_append]
    simp only [processItems, normalizeItem_err_of_missing it key hkey]
  | cons x rest ih =>
    obtain ⟨r, hr⟩ := normalizeItem_ok_of_wf x (hwf x (List.mem_cons_self _ _))
    simp only [List.length_cons] at hreach
    have hge : ¬(fetched + 1 ≥ limit) := by omega
    have hrec := ih (fetched + 1) (fun y hy => hwf y (List.mem_cons_of_mem _ hy)) (by omega)
    rw [List.cons_append]
    simp only [processItems, hr, if_neg hge, hrec]

/-- A malformed record on any page aborts the whole page loop with its
KeyError, provided every earlier page succeeded with at most 50 well-formed
items and the limit cutoff cannot have fired before the record: everything
the earlier pages accumulated is discarded. -/
lemma fetchLoop_err_reached (upstream : Upstream) (limit : Nat) (ps1 : List Nat) (k : Nat)
    (ps2 : List Nat) (pre : List UpstreamItem) (it : UpstreamItem) (post : List UpstreamItem)
    (key : String) (acc : List Row) (fetched : Nat)
    (hprev : ∀ p ∈ ps1, ∃ its, upstream p = .ok its ∧ its.length ≤ 50 ∧
      ∀ x ∈ its, missingKey x = none)
    (hreach : fetched + 50 * ps1.length + pre.length < limit)
    (hpage : upstream k = .ok (pre ++ it :: post))
    (hwfpre : ∀ x ∈ pre, missingKey x = none)
    (hkey : missingKey it = some key) :
    fetchLoop upstream limit (ps1 ++ k :: ps2) acc fetched = .error (.keyError key) := by
  induction ps1 generalizing acc fetched with
  | nil =>
    rw [List.nil_append]
    have hp2 := processItems_err_reached limit pre it post fetched key hwfpre (by omega) hkey
    simp only [fetchLoop, hpage, hp2]
  | cons q rest ih =>
    obtain ⟨its, hq, hlen, hwf⟩ := hprev q (List.mem_cons_self _ _)
    obtain ⟨rs, f2, hpi, hf2⟩ := processItems_ok_of_wf limit its fetched hwf
    simp only [List.length_cons] at hreach
    rw [List.cons_append]
    simp only [fetchLoop, hq, hpi]
    exact ih (acc ++ rs) f2 (fun p hp => hprev p (List.mem_cons_of_mem _ hp)) (by omega)

/-- Claim C5: for every fetch and every issued page `k` whose request fails,
the failure aborts the remaining pagination loop immediately — it is never
retried — and the fetch result is exactly what a fetch over the pages before
`k` yields: the listings already collected from the earlier pages are
returned, not discarded. -/
theorem C5_network_partial (upstream : Upstream) (parse : String → Option Nat)
    (search_term category : String) (limit : Nat)
    (hcat : category = "All" ∨ (categoryLookup category).isSome = true)
    (k : Nat) (hk1 : 1 ≤ k) (hk2 : k ≤ limit / 50 + 1)
    (herr : upstream k = .err) :
    fetch_vinted_items upstream parse search_term category limit
      = (fetchLoop upstream limit (List.range' 1 (k - 1)) [] 0).bind (convertCreated parse) := by
  obtain ⟨v, hv⟩ := resolveCatalog_ok category hcat
  have hsplit := range'_split_at (limit / 50 + 1) k hk1 hk2
  simp only [fetch_vinted_items, hv, hsplit,
    fetchLoop_break upstream limit (List.range' 1 (k - 1)) k
      (List.range' (k + 1) (limit / 50 + 1 - k)) [] 0 herr]
  cases h1 : fetchLoop upstream limit (List.range' 1 (k - 1)) [] 0 with
  | error e => simp [h1, Except.bind]
  | ok rows => simp [h1, Except.bind]

/-- Witness for C5: concrete 3-page fetch (limit 100) whose page 2 fails;
the result is the page-1 fetch. -/
theorem C5_network_partial_witness :
    fetch_vinted_items c5Up noParse "iPhone" "All" 100
      = (fetchLoop c5Up 100 (List.range' 1 1) [] 0).bind (convertCreated noParse) :=
  C5_network_partial c5Up noParse "iPhone" "All" 100 (Or.inl rfl) 2
    (by decide) (by decide) rfl

/-- Claim C10: a fetch that collects zero records — every page returns no
items, or the very first page request fails — raises KeyError in the final
timestamp-conversion step instead of returning an empty listing sequence. -/
theorem C10_empty_fetch_raises (upstream : Upstream) (parse : String → Option Nat)
    (search_term category : String) (limit : Nat)
    (hcat : category = "All" ∨ (categoryLookup category).isSome = true)
    (h : upstream 1 = .err ∨ ∀ p, upstream p = .ok []) :
    fetch_vinted_items upstream parse search_term category limit
      = .error (.keyError "Created") := by
  obtain ⟨v, hv⟩ := resolveCatalog_ok category hcat
  have hloop : fetchLoop upstream limit (List.range' 1 (limit / 50 + 1)) [] 0 = .ok [] := by
    cases h with
    | inl h1 =>
      rw [List.range'_succ]
      simp only [fetchLoop, h1]
    | inr hall => exact fetchLoop_empty _ _ _ _ _ (fun p _ => hall p)
  simp only [fetch_vinted_items, hv, hloop]
  rfl

/-- Witness for C10: an upstream that answers every page with zero items. -/
theorem C10_empty_fetch_raises_witness :
    fetch_vinted_items c10Up noParse "iPhone" "All" 100
      = .error (.keyError "Created") :=
  C10_empty_fetch_raises c10Up noParse "iPhone" "All" 100 (Or.inl rfl)
    (Or.inr (fun _ => rfl))

/-- Counterexample to C3 as stated: a page-1 batch holding a well-formed
record followed by a record lacking the required `title` field makes the
whole fetch abort with an uncaught KeyError — the well-formed record is not
returned, contradicting the claim that only the malformed record fails while
the rest of the batch is normalized and returned. -/
theorem C3_malformed_counterexample :
    fetch_vinted_items c3Up noParse "iPhone" "Electronics" 50
      = .error (.keyError "title") := rfl

/-- Amended C3: an upstream record lacking any of the required identity
fields (`id`, `title`, `price`, `url`) does not fail just that record — the
KeyError naming the first missing field escapes `fetch_vinted_items`
entirely, whatever page and position the record occupies, so the whole fetch
aborts and no listings are returned, including the records already
normalized from earlier pages and from earlier in the same batch. -/
theorem C3_malformed_amended (upstream : Upstream) (parse : String → Option Nat)
    (search_term category : String) (limit : Nat)
    (hcat : category = "All" ∨ (categoryLookup category).isSome = true)
    (k : Nat) (pre : List UpstreamItem) (it : UpstreamItem) (post : List UpstreamItem)
    (key : String) (hk1 : 1 ≤ k) (hk2 : k ≤ limit / 50 + 1)
    (hprev : ∀ p ∈ List.range' 1 (k - 1), ∃ its, upstream p = .ok its ∧
      its.length ≤ 50 ∧ ∀ x ∈ its, missingKey x = none)
    (hreach : 50 * (k - 1) + pre.length < limit)
    (hpage : upstream k = .ok (pre ++ it :: post))
    (hwfpre : ∀ x ∈ pre, missingKey x = none)
    (hkey : missingKey it = some key) :
    fetch_vinted_items upstream parse search_term category limit
      = .error (.keyError key) := by
  obtain ⟨v, hv⟩ := resolveCatalog_ok category hcat
  have hsplit := range'_split_at (limit / 50 + 1) k hk1 hk2
  have herr := fetchLoop_err_reached upstream limit (List.range' 1 (k - 1)) k
    (List.range' (k + 1) (limit / 50 + 1 - k)) pre it post key [] 0 hprev
    (by rw [List.length_range']; omega) hpage hwfpre hkey
  simp only [fetch_vinted_items, hv, hsplit, herr]

/-- Witness for the amended C3: a 3-page fetch whose page 1 yields one
well-formed record and whose page 2 carries a record missing `price` in
second position; the whole fetch aborts with that KeyError. -/
theorem C3_malformed_amended_witness :
    fetch_vinted_items c3WitUp noParse "iPhone" "All" 100
      = .error (.keyError "price") :=
  C3_malformed_amended c3WitUp noParse "iPhone" "All" 100 (Or.inl rfl)
    2 [sampleItem] c3BadPriceItem [sampleItem] "price" (by decide) (by decide)
    (by
      intro p hp
      have hp1 : p = 1 := by simpa [List.range'] using hp
      subst hp1
      exact ⟨[sampleItem], rfl, by decide, by decide⟩)
    (by decide) rfl (by decide) rfl

/-- When every row's `Created` cell is empty or parseable, the conversion
succeeds and produces exactly the described per-row listings. -/
lemma convertRows_ok_of_parse (parse : String → Option Nat) (rows : List Row)
    (h : ∀ r ∈ rows, r.Created = "" ∨ (parse r.Created).isSome = true) :
    convertRows parse rows = .ok (rows.map (listingOf parse)) := by
  induction rows with
  | nil => rfl
  | cons r rest ih =>
    have hr := h r (List.mem_cons_self _ _)
    have hrest := ih (fun x hx => h x (List.mem_cons_of_mem _ hx))
    simp only [convertRows, hrest, List.map_cons]
    cases hr with
    | inl he => simp [to_datetime1, he, listingOf]
    | inr hp =>
      by_cases he : r.Created = ""
      · simp [to_datetime1, he, listingOf]
      · cases hps : parse r.Created with
        | none => rw [hps] at hp; simp at hp
        | some t => simp [to_datetime1, he, hps, listingOf]

/-- One non-empty unparseable `Created` cell anywhere in the rows makes the
whole conversion fail. -/
lemma convertRows_err_of_bad (parse : String → Option Nat) (rows : List Row)
    (r : Row) (hr : r ∈ rows) (hne : r.Created ≠ "") (hp : parse r.Created = none) :
    exceptIsOk (convertRows parse rows) = false := by
  induction rows with
  | nil => simp at hr
  | cons x rest ih =>
    rcases List.mem_cons.mp hr with hx | hmem
    · subst hx
      simp only [convertRows, to_datetime1, if_neg hne, hp]
      rfl
    · simp only [convertRows]
      cases h1 : to_datetime1 parse x.Created with
      | error e => rfl
      | ok c =>
        have hrec := ih hmem
        cases h2 : convertRows parse rest with
        | error e => rfl
        | ok tail => rw [h2] at hrec; exact absurd hrec (by simp [exceptIsOk])

/-- Counterexample to C4 as stated: a batch holding a record with empty
`created_at` (fine, becomes NaT) and a record with an unparseable non-empty
`created_at` does abort: the whole fetch raises ValueError in the trailing
conversion and returns no listings, instead of returning the full normalized
sequence with a sentinel timestamp for the bad record. -/
theorem C4_created_counterexample :
    fetch_vinted_items c4Up c4Parse "iPhone" "Electronics" 50
      = .error (.valueError "garbage") := rfl

/-- Amended C4: an empty `created_at` does not abort the batch — it resolves
to the NaT sentinel, and the whole batch is returned when every cell is
empty or parseable — but a record whose `created_at` is non-empty and
unparseable makes the final conversion step fail, aborting the entire
fetch result. -/
theorem C4_created_amended (parse : String → Option Nat) (rows : List Row) :
    ((∀ r ∈ rows, r.Created = "" ∨ (parse r.Created).isSome = true) → rows ≠ [] →
        convertCreated parse rows = .ok (rows.map (listingOf parse)))
    ∧ (∀ r ∈ rows, r.Created ≠ "" → parse r.Created = none →
        exceptIsOk (convertCreated parse rows) = false) := by
  constructor
  · intro hall hne
    cases rows with
    | nil => exact absurd rfl hne
    | cons r rest => exact convertRows_ok_of_parse parse (r :: rest) hall
  · intro r hr hne hp
    cases rows with
    | nil => simp at hr
    | cons x rest => exact convertRows_err_of_bad parse (x :: rest) r hr hne hp

/-- Witness for the amended C4: the conversion succeeds on an empty cell
plus a parseable cell, and fails on a batch holding an unparseable cell. -/
theorem C4_created_amended_witness :
    convertCreated c4Parse [c4RowEmpty, c4RowGood]
        = .ok ([c4RowEmpty, c4RowGood].map (listingOf c4Parse))
    ∧ exceptIsOk (convertCreated c4Parse [c4RowEmpty, c4RowBad]) = false :=
  ⟨(C4_created_amended c4Parse [c4RowEmpty, c4RowGood]).1 (by decide) (by decide),
   (C4_created_amended c4Parse [c4RowEmpty, c4RowBad]).2 c4RowBad (by decide)
     (by decide) (by decide)⟩

/-- Counterexample to C1 as stated: with the search term "iPhone", the
recognized category "Electronics", the in-range limit 50 and an upstream
supplying the full 50 items on every page, the fetch succeeds but returns
51 listings — more than `limit` — because the per-record limit check only
breaks the inner item loop, and page 2 appends one more record before the
check fires. -/
theorem C1_fetch_limit_counterexample :
    c1Fetch = Except.ok c1Out ∧ c1Out.length = 51 ∧ 50 < c1Out.length :=
  ⟨rfl, rfl, by decide⟩

/-- Amended C1: for every search term, category, and limit in the supported
range, when every successful page carries at most the 50 requested items, a
successful fetch returns at most `limit + 1` listings; when `limit` is not a
multiple of 50 the bound tightens to `limit` (the one-record overshoot can
only happen when the limit is hit exactly at a page boundary). -/
theorem C1_fetch_limit_amended (upstream : Upstream) (parse : String → Option Nat)
    (search_term category : String) (limit : Nat) (out : List Listing)
    (hlo : 50 ≤ limit) (hhi : limit ≤ 200)
    (h50 : ∀ p its, upstream p = .ok its → its.length ≤ 50)
    (hok : fetch_vinted_items upstream parse search_term category limit = .ok out) :
    out.length ≤ limit + 1 ∧ (limit % 50 ≠ 0 → out.length ≤ limit) := by
  simp only [fetch_vinted_items] at hok
  cases hres : resolveCatalog category with
  | error e =>
    simp only [hres] at hok
    exact Except.noConfusion hok
  | ok v =>
    simp only [hres] at hok
    cases hloop : fetchLoop upstream limit (List.range' 1 (limit / 50 + 1)) [] 0 with
    | error e =>
      simp only [hloop] at hok
      exact Except.noConfusion hok
    | ok rows =>
      simp only [hloop] at hok
      have hlen : out.length = rows.length := convertCreated_length parse rows out hok
      have hple : rows.length ≤ List.length ([] : List Row) + (limit + 1 - 0) :=
        fetchLoop_len_le upstream limit h50 _ [] 0 rows
          (by rw [List.length_range']; omega) hloop
      constructor
      · simp only [List.length_nil] at hple
        omega
      · intro hmod
        have hplt : rows.length ≤ List.length ([] : List Row) + (limit - 0) :=
          fetchLoop_len_lt upstream limit h50 _ [] 0 rows
            (by rw [List.length_range']; omega) hloop
        simp only [List.length_nil] at hplt
        omega

/-- Witness for the amended C1 at the concrete overshooting input: the
51-listing result is within the amended bound of limit + 1 = 51. -/
theorem C1_fetch_limit_amended_witness :
    c1Out.length ≤ 50 + 1 ∧ (50 % 50 ≠ 0 → c1Out.length ≤ 50) :=
  C1_fetch_limit_amended c1Up noParse "iPhone" "Electronics" 50 c1Out
    (by decide) (by decide)
    (fun p its h => by
      have h2 : PageResult.ok (List.replicate 50 sampleItem) = PageResult.ok its := h
      injection h2 with h3
      rw [← h3]
      simp)
    rfl

end VintedApp
